import Mathlib

/-!
Verification development for the ioBroker socket-client `Connection` class
(src/src/Connection.ts). The definitions below are a shallow embedding of the
connection's request coordinator, pattern matcher, subscription registries,
object/state mirrors, timeout machinery and connection lifecycle. JavaScript
objects (string-keyed records with unique keys) are modelled as association
lists, promises as abstract numeric identities, and the socket transport as a
list of emitted wire messages.
-/

namespace SocketClient

/-- Association-list lookup, modelling JS property access `m[k]` /
`k in m` on a plain object (keys are unique by construction of `aset`). -/
def alookup {α β : Type} [DecidableEq α] (k : α) : List (α × β) → Option β
  | [] => none
  | (k', v) :: rest => if k' = k then some v else alookup k rest

/-- Association-list update, modelling JS property assignment `m[k] = v`. -/
def aset {α β : Type} [DecidableEq α] (k : α) (v : β) :
    List (α × β) → List (α × β)
  | [] => [(k, v)]
  | (k', v') :: rest =>
    if k' = k then (k, v) :: rest else (k', v') :: aset k v rest

/-- Association-list removal, modelling JS `delete m[k]`. -/
def aerase {α β : Type} [DecidableEq α] (k : α) :
    List (α × β) → List (α × β)
  | [] => []
  | (k', v') :: rest =>
    if k' = k then aerase k rest else (k', v') :: aerase k rest

/-- `ERRORS` enum from Connection.ts (lines 22-28). -/
inductive ERRORS where
  | PERMISSION_ERROR
  | NOT_CONNECTED
  | TIMEOUT
  | NOT_ADMIN
  | NOT_SUPPORTED
deriving DecidableEq, Repr

/-! ## Request coordinator (`Connection.request`, lines 723-790)

A promise is identified by a numeric identity (`Nat`); `_promises` is the
in-flight cache mapping a cache key to the promise stored under it. The
backend's answers to `checkFeatureSupported` are abstracted as a pure oracle
`supportedFeature` on the connection state (the nested request that produces
them is a separate call and does not interact with the claims below). -/

structure RequestConfig where
  cacheKey : Option String := none
  forceUpdate : Bool := false
  requireAdmin : Bool := false
  requireFeatures : List String := []

structure ReqState where
  /-- `this.connected` -/
  connected : Bool
  /-- `Connection.isWeb()`: whether `window.socketUrl` is defined. -/
  isWeb : Bool
  /-- Abstract backend oracle for `checkFeatureSupported`. -/
  supportedFeature : String → Bool
  /-- `this._promises`: cache key ↦ promise identity. -/
  promises : List (String × Nat)
  /-- Next fresh promise identity. -/
  nextId : Nat

inductive ReqOutcome where
  /-- The call was rejected synchronously with the given error. -/
  | rejected (e : ERRORS)
  /-- The call returned the promise with the given identity. -/
  | outcome (id : Nat)
deriving DecidableEq, Repr

/-- Sequential feature check (lines 751-757): every required feature must be
supported, otherwise the request throws `NOT_SUPPORTED`. -/
def checkFeatures (st : ReqState) : List String → Bool
  | [] => true
  | f :: rest => st.supportedFeature f && checkFeatures st rest

/-- The cache lookup of line 741:
`if (cacheKey && !forceUpdate && cacheKey in this._promises)`.
JS truthiness of `cacheKey` makes the empty string bypass the cache. -/
def cachedHit (st : ReqState) (cfg : RequestConfig) : Option Nat :=
  match cfg.cacheKey with
  | none => none
  | some k =>
    if k = "" then none
    else if cfg.forceUpdate then none
    else alookup k st.promises

/-- `Connection.request` (lines 723-790): admin gating, cache lookup,
connectivity check, feature check, then construction of a fresh pending
outcome which is stored under the cache key (if truthy) before returning. -/
def request (st : ReqState) (cfg : RequestConfig) : ReqOutcome × ReqState :=
  -- If the command requires the admin adapter, enforce it
  if cfg.requireAdmin && st.isWeb then (.rejected .NOT_ADMIN, st)
  else
    -- Return the cached value if allowed
    match cachedHit st cfg with
    | some p => (.outcome p, st)
    | none =>
      -- Require the socket to be connected
      if !st.connected then (.rejected .NOT_CONNECTED, st)
      -- Check if all required features are supported
      else if !checkFeatures st cfg.requireFeatures then
        (.rejected .NOT_SUPPORTED, st)
      else
        -- Construct the fresh promise and store it when a cache key is given
        let fresh := st.nextId
        let promises' :=
          match cfg.cacheKey with
          | some k => if k = "" then st.promises else aset k fresh st.promises
          | none => st.promises
        (.outcome fresh, { st with promises := promises', nextId := fresh + 1 })

/-! ## Pattern compilation (`subscribeState` lines 524-536,
`subscribeObject` lines 608-613)

JS strings are modelled as `List Char`. `replaceChar c r` is the one-pass
global replacement `s.replace(/c/g, r)` of the single character `c` by the
string `r` (the replacement text is not rescanned). -/

def replaceChar (c : Char) (r : List Char) : List Char → List Char
  | [] => []
  | x :: xs => (if x = c then r else [x]) ++ replaceChar c r xs

/-- The pattern-to-regex-source compilation of `subscribeState`
(lines 525-535): escape `.`, rewrite `*` to `.*`, escape `(`, `)`, `+`, `[`
(in that order), then append the end anchor `$` iff no `*` occurs. -/
def compileStatePattern (id : List Char) : List Char :=
  let reg :=
    replaceChar '[' ['\\', '['] (replaceChar '+' ['\\', '+']
      (replaceChar ')' ['\\', ')'] (replaceChar '(' ['\\', '(']
        (replaceChar '*' ['.', '*'] (replaceChar '.' ['\\', '.'] id)))))
  if '*' ∈ reg then reg else reg ++ ['$']

/-- The pattern-to-regex-source compilation of `subscribeObject`
(lines 609-612): escape `.`, rewrite `*` to `.*`, then append the end
anchor `$` iff no `*` occurs. The characters `(`, `)`, `+`, `[` are NOT
escaped here. -/
def compileObjectPattern (id : List Char) : List Char :=
  let reg := replaceChar '*' ['.', '*'] (replaceChar '.' ['\\', '.'] id)
  if '*' ∈ reg then reg else reg ++ ['$']

/-- Single-pass character table describing the state-pattern compilation:
the five literals `. ( ) + [` are escaped and `*` becomes `.*`. -/
def stateEscapeChar (c : Char) : List Char :=
  if c = '.' then ['\\', '.']
  else if c = '*' then ['.', '*']
  else if c = '(' then ['\\', '(']
  else if c = ')' then ['\\', ')']
  else if c = '+' then ['\\', '+']
  else if c = '[' then ['\\', '['] else [c]

def stateEscape : List Char → List Char
  | [] => []
  | c :: rest => stateEscapeChar c ++ stateEscape rest

/-- Single-pass character table describing the object-pattern compilation:
only `.` is escaped and `*` becomes `.*`. -/
def objEscapeChar (c : Char) : List Char :=
  if c = '.' then ['\\', '.']
  else if c = '*' then ['.', '*'] else [c]

def objEscape : List Char → List Char
  | [] => []
  | c :: rest => objEscapeChar c ++ objEscape rest

/-! ## Model of the JS `RegExp` collaborator

The compiled pattern source is handed to `new RegExp(reg)` and used via
`reg.test(id)` (lines 536, 613, 694, 715). We model the fragment of
JS regular expressions that pattern compilation can produce: literal
characters, backslash escapes, `.`, the postfix quantifiers `*` and `+`, and
the end anchor `$`. Constructs outside this fragment (groups, classes,
alternation, `^`, `?`, braces) make the model return `none` (unsupported).
`test` searches for a match starting at any offset; it is NOT anchored at
the start. -/

inductive RAtom where
  | lit (c : Char)
  | dot
  | endA
  | starMark
  | plusMark
deriving DecidableEq, Repr

inductive RTok where
  | lit (c : Char)
  | dot
  | star (t : RTok)
  | plus (t : RTok)
  | endAnchor
deriving DecidableEq, Repr

/-- Characters of the regex language that the model does not support. -/
def isRegexSpecial (c : Char) : Bool :=
  c = '(' || c = ')' || c = '[' || c = ']' || c = '^' || c = '|' ||
  c = '?' || c = Char.ofNat 123 || c = Char.ofNat 125

/-- Tokenize a regex source string: backslash escapes yield literals; `.`,
`$`, `*`, `+` yield markers; other unsupported metacharacters are rejected. -/
def lexRegex : List Char → Option (List RAtom)
  | [] => some []
  | c :: rest =>
    if c = '\\' then
      match rest with
      | [] => none
      | c2 :: rest2 => (lexRegex rest2).map (RAtom.lit c2 :: ·)
    else if c = '.' then (lexRegex rest).map (RAtom.dot :: ·)
    else if c = '$' then (lexRegex rest).map (RAtom.endA :: ·)
    else if c = '*' then (lexRegex rest).map (RAtom.starMark :: ·)
    else if c = '+' then (lexRegex rest).map (RAtom.plusMark :: ·)
    else if isRegexSpecial c then none
    else (lexRegex rest).map (RAtom.lit c :: ·)

/-- Attach the postfix quantifiers `*` and `+` to the atom they follow. -/
def applyMarks : List RAtom → Option (List RTok)
  | [] => some []
  | .starMark :: _ => none
  | .plusMark :: _ => none
  | .endA :: rest => (applyMarks rest).map (RTok.endAnchor :: ·)
  | .lit c :: .starMark :: rest =>
    (applyMarks rest).map (RTok.star (.lit c) :: ·)
  | .lit c :: .plusMark :: rest =>
    (applyMarks rest).map (RTok.plus (.lit c) :: ·)
  | .lit c :: rest => (applyMarks rest).map (RTok.lit c :: ·)
  | .dot :: .starMark :: rest => (applyMarks rest).map (RTok.star .dot :: ·)
  | .dot :: .plusMark :: rest => (applyMarks rest).map (RTok.plus .dot :: ·)
  | .dot :: rest => (applyMarks rest).map (RTok.dot :: ·)

/-- `new RegExp(reg)`: parse the regex source into tokens. -/
def parseRegex (s : List Char) : Option (List RTok) :=
  (lexRegex s).bind applyMarks

/-- Whether a single-character token matches a character. -/
def matchOne : RTok → Char → Bool
  | .lit c, x => x = c
  | .dot, _ => true
  | _, _ => false

/-- Fueled matcher: does the token list match a prefix of `s` (consuming to
the end of `s` only where `$` demands it)? Backtracking is modelled by the
boolean disjunction; every recursive call decreases
`2 * toks.length + s.length`, so the fuel provided by `matchHere` below is
always sufficient. -/
def matchFuel : Nat → List RTok → List Char → Bool
  | 0, _, _ => false
  | _ + 1, [], _ => true
  | f + 1, .endAnchor :: ts, s => s.isEmpty && matchFuel f ts s
  | f + 1, .lit c :: ts, s =>
    match s with
    | [] => false
    | x :: xs => if x = c then matchFuel f ts xs else false
  | f + 1, .dot :: ts, s =>
    match s with
    | [] => false
    | _ :: xs => matchFuel f ts xs
  | f + 1, .star t :: ts, s =>
    matchFuel f ts s ||
      (match s with
       | [] => false
       | x :: xs => matchOne t x && matchFuel f (.star t :: ts) xs)
  | f + 1, .plus t :: ts, s =>
    match s with
    | [] => false
    | x :: xs => matchOne t x && matchFuel f (.star t :: ts) xs

/-- Match the token list at the current position. -/
def matchHere (toks : List RTok) (s : List Char) : Bool :=
  matchFuel (2 * toks.length + s.length + 1) toks s

/-- `RegExp.prototype.test`: search for a match starting at any offset. -/
def rtest (toks : List RTok) : List Char → Bool
  | [] => matchHere toks []
  | x :: xs => matchHere toks (x :: xs) || rtest toks xs

/-- `new RegExp(reg).test(id)` for a compiled pattern source `reg`. -/
def regTest (reg : List Char) (id : List Char) : Bool :=
  match parseRegex reg with
  | some toks => rtest toks id
  | none => false

/-- The matcher `subscribeState` installs for pattern `p`, applied to `id`. -/
def stateMatcherAccepts (p id : List Char) : Bool :=
  regTest (compileStatePattern p) id

/-- The matcher `subscribeObject` installs for pattern `p`, applied to `id`. -/
def objectMatcherAccepts (p id : List Char) : Bool :=
  regTest (compileObjectPattern p) id

/-- Pattern characters for which the state-pattern compilation produces a
plain literal regex: everything except the characters that remain
regex-metacharacters after compilation (`\`, `^`, `$`, `|`, `?`, `]`,
braces) and the wildcard `*`. -/
def stateSafeChar (c : Char) : Bool :=
  !(c = '\\' || c = '^' || c = '$' || c = '|' || c = '?' || c = ']' ||
    c = Char.ofNat 123 || c = Char.ofNat 125 || c = '*')

/-- Pattern characters that compile to plain literals under the
object-pattern compilation, which additionally leaves `(`, `)`, `+`, `[`
unescaped. -/
def objSafeChar (c : Char) : Bool :=
  stateSafeChar c && !(c = '(' || c = ')' || c = '+' || c = '[')

/-! ## Subscription registries, mirrors and change notifications

Callbacks are identified by numbers. A registry entry stores the compiled
regex source and the ordered callback list, keyed by the raw pattern
(`statesSubscribes` / `objectsSubscribes`, lines 132-139). -/

/-- An ioBroker state value (opaque payload). -/
abbrev StateVal := String

/-- An ioBroker object document: revision marker `_rev`, `type`, and an
opaque remainder `data` standing for all other fields. Structural equality
models the `JSON.stringify` comparison of `objectChange`. -/
structure MObject where
  rev : Option String := none
  type : Option String := none
  data : String := ""
deriving DecidableEq, Repr

/-- The `OldObject` summary `{ _id, type }` built by `objectChange`. -/
structure OldObject where
  _id : String
  type : Option String
deriving DecidableEq, Repr

structure SubEntry where
  reg : List Char
  cbs : List Nat
deriving DecidableEq, Repr

/-- Messages emitted on the socket transport. -/
inductive WireMsg where
  | subscribe (id : String)
  | unsubscribe (id : String)
  | subscribeObjects (id : String)
  | unsubscribeObjects (id : String)
  | getForeignStates (id : String)
  | getBinaryState (id : String)
  | setObject (id : String) (obj : List (String × String))
  | extendObject (id : String) (obj : List (String × String))
deriving DecidableEq, Repr

/-- The connection state visible to the registries and mirrors. -/
structure ConnState where
  connected : Bool
  statesSubscribes : List (String × SubEntry)
  objectsSubscribes : List (String × SubEntry)
  states : List (String × StateVal)
  objects : Option (List (String × MObject))
deriving DecidableEq, Repr

/-- State after the constructor (lines 82-91): disconnected, empty
registries, empty state mirror, no object mirror. -/
def initConn : ConnState :=
  { connected := false, statesSubscribes := [], objectsSubscribes := [],
    states := [], objects := none }

/-- `subscribeState` (lines 514-569): create the entry with a compiled
matcher on first subscription (wire-subscribing if connected), otherwise
append the callback if not already present; in either case, when connected,
fetch the current value for the new callback. -/
def subscribeState (st : ConnState) (id : String) (binary : Bool)
    (cb : Nat) : ConnState × List WireMsg :=
  let fetch : List WireMsg :=
    if st.connected then
      [if binary then WireMsg.getBinaryState id else
        WireMsg.getForeignStates id]
    else []
  match alookup id st.statesSubscribes with
  | none =>
    let entry : SubEntry :=
      { reg := compileStatePattern id.toList, cbs := [cb] }
    ({ st with statesSubscribes := aset id entry st.statesSubscribes },
      (if st.connected then [WireMsg.subscribe id] else []) ++ fetch)
  | some e =>
    let e' := if cb ∈ e.cbs then e else { e with cbs := e.cbs ++ [cb] }
    ({ st with statesSubscribes := aset id e' st.statesSubscribes }, fetch)

/-- `indexOf` + `splice`: remove the first occurrence of a callback. -/
def removeFirst (c : Nat) : List Nat → List Nat
  | [] => []
  | x :: xs => if x = c then xs else x :: removeFirst c xs

/-- The callback list remaining after an unsubscribe: remove the given
callback, or clear the list when no callback is given (lines 582-587 and
637-642). -/
def newCbs (cb : Option Nat) (e : SubEntry) : List Nat :=
  match cb with
  | some c => removeFirst c e.cbs
  | none => []

/-- `unsubscribeState` (lines 580-597): drop the callback (or all); when
the remaining list is empty, delete the entry and, if connected, emit a
wire unsubscribe. -/
def unsubscribeState (st : ConnState) (id : String) (cb : Option Nat) :
    ConnState × List WireMsg :=
  match alookup id st.statesSubscribes with
  | none => (st, [])
  | some e =>
    let cbs' := newCbs cb e
    if cbs'.isEmpty then
      ({ st with statesSubscribes := aerase id st.statesSubscribes },
        if st.connected then [WireMsg.unsubscribe id] else [])
    else
      let e' := { e with cbs := cbs' }
      ({ st with statesSubscribes := aset id e' st.statesSubscribes }, [])

/-- `subscribeObject` (lines 604-621). -/
def subscribeObject (st : ConnState) (id : String) (cb : Nat) :
    ConnState × List WireMsg :=
  match alookup id st.objectsSubscribes with
  | none =>
    let entry : SubEntry :=
      { reg := compileObjectPattern id.toList, cbs := [cb] }
    ({ st with objectsSubscribes := aset id entry st.objectsSubscribes },
      if st.connected then [WireMsg.subscribeObjects id] else [])
  | some e =>
    let e' := if cb ∈ e.cbs then e else { e with cbs := e.cbs ++ [cb] }
    ({ st with objectsSubscribes := aset id e' st.objectsSubscribes }, [])

/-- `unsubscribeObject` (lines 632-654): drop the callback (or all); the
deletion of an emptied entry is guarded by `this.connected &&` in the
source, so a disconnected unsubscribe keeps the emptied entry. -/
def unsubscribeObject (st : ConnState) (id : String) (cb : Option Nat) :
    ConnState × List WireMsg :=
  match alookup id st.objectsSubscribes with
  | none => (st, [])
  | some e =>
    let cbs' := newCbs cb e
    if st.connected && cbs'.isEmpty then
      ({ st with objectsSubscribes := aerase id st.objectsSubscribes },
        if st.connected then [WireMsg.unsubscribeObjects id] else [])
    else
      let e' := { e with cbs := cbs' }
      ({ st with objectsSubscribes := aset id e' st.objectsSubscribes }, [])

/-- JS truthiness of the `_rev` marker in `if (obj._rev && ...)`. -/
def truthyRev : Option String → Bool
  | none => false
  | some s => s != ""

/-- Mirror maintenance of `objectChange` (lines 661-691): stamp the stored
entry's revision forward, compute the previous summary from the (stamped)
stored entry, then replace the entry wholesale when it differs from the
incoming object (by the `JSON.stringify` comparison), or delete it when
`null` arrives. Returns the new mirror, the previous summary, and the
`changed` flag that gates `props.onObjectChange`. -/
def objectChangeCore (objs : List (String × MObject)) (id : String)
    (obj : Option MObject) :
    List (String × MObject) × Option OldObject × Bool :=
  match obj with
  | some o =>
    let objs1 :=
      if truthyRev o.rev then
        match alookup id objs with
        | some stored => aset id { stored with rev := o.rev } objs
        | none => objs
      else objs
    let oldObj := (alookup id objs1).map
      (fun stored => { _id := id, type := stored.type : OldObject })
    match alookup id objs1 with
    | none => (aset id o objs1, oldObj, true)
    | some stored =>
      if stored = o then (objs1, oldObj, false)
      else (aset id o objs1, oldObj, true)
  | none =>
    match alookup id objs with
    | some stored =>
      (aerase id objs, some { _id := id, type := stored.type }, true)
    | none => (objs, none, false)

/-- One callback invocation of the object-change fan-out. -/
structure ObjInvocation where
  cb : Nat
  id : String
  obj : Option MObject
  oldObj : Option OldObject
deriving DecidableEq, Repr

/-- Fan-out of `objectChange` (lines 693-699): every entry whose raw
pattern equals the identifier or whose matcher accepts it has all its
callbacks invoked with `(id, obj, oldObj)`, in registration order. -/
def objectFanOut (subs : List (String × SubEntry)) (id : String)
    (obj : Option MObject) (oldObj : Option OldObject) :
    List ObjInvocation :=
  (subs.filter (fun e => e.1 == id || regTest e.2.reg id.toList)).flatMap
    (fun e => e.2.cbs.map
      (fun cb => { cb := cb, id := id, obj := obj, oldObj := oldObj }))

/-- `objectChange` (lines 661-704): no-op when the object mirror is not
loaded; otherwise update the mirror, fan out to matching subscribers, and
report whether the object changed (which gates `props.onObjectChange`). -/
def objectChange (st : ConnState) (id : String) (obj : Option MObject) :
    ConnState × List ObjInvocation × Bool :=
  match st.objects with
  | none => (st, [], false)
  | some objs =>
    let res := objectChangeCore objs id obj
    ({ st with objects := some res.1 },
      objectFanOut st.objectsSubscribes id obj res.2.1, res.2.2)

/-- One callback invocation of the state-change fan-out. -/
structure StInvocation where
  cb : Nat
  id : String
  state : Option StateVal
deriving DecidableEq, Repr

/-- `stateChange` (lines 711-720): invoke the callbacks of every entry
whose matcher accepts the identifier. The connection state — in particular
the `states` mirror — is not modified. -/
def stateChange (st : ConnState) (id : String) (state : Option StateVal) :
    ConnState × List StInvocation :=
  (st,
    (st.statesSubscribes.filter (fun e => regTest e.2.reg id.toList)).flatMap
      (fun e => e.2.cbs.map
        (fun cb => { cb := cb, id := id, state := state })))

/-! ## Timeout machinery of `request` (lines 759-785) and the `cmdExec`
acknowledgement handler (lines 1469-1483)

A promise settles at most once: `settle` only acts on a pending outcome.
`fireTimeout` is the `setTimeout` callback: it marks the timeout control
elapsed, invokes `onTimeout` (counted), and rejects with `TIMEOUT`.
`cmdExecAck` is the transport acknowledgement of `cmdExec`: it returns
immediately when the timeout has elapsed, otherwise clears the timer and
settles the outcome. -/

inductive RPCError where
  | timeout
  | backend (e : String)
deriving DecidableEq, Repr

/-- The settled result of the promise built by `request`. -/
inductive CmdOutcome where
  | fulfilled
  | rejected (e : RPCError)
deriving DecidableEq, Repr

/-- Settle a promise: resolving or rejecting an already-settled promise is
a no-op. -/
def settle (o : Option CmdOutcome) (r : CmdOutcome) : Option CmdOutcome :=
  match o with
  | none => some r
  | some x => some x

structure CmdCallState where
  outcome : Option CmdOutcome
  elapsed : Bool
  timerActive : Bool
  onTimeoutCalls : Nat
deriving DecidableEq, Repr

/-- The call state right after `request` built the promise (lines 759-777):
pending outcome, timeout not elapsed, timer armed unless the timeout was
explicitly disabled with `commandTimeout: false`. -/
def initCmdCall (timeoutDisabled : Bool) : CmdCallState :=
  { outcome := none, elapsed := false, timerActive := !timeoutDisabled,
    onTimeoutCalls := 0 }

/-- Timer expiry (lines 768-773): set `elapsed`, call `onTimeout`, reject
with `TIMEOUT`. A `setTimeout` timer fires at most once. -/
def fireTimeout (st : CmdCallState) : CmdCallState :=
  if st.timerActive then
    { outcome := settle st.outcome (.rejected .timeout)
      elapsed := true
      timerActive := false
      onTimeoutCalls := st.onTimeoutCalls + 1 }
  else st

/-- The `cmdExec` acknowledgement (lines 1474-1480):
`if (timeout.elapsed) return;` discards the signal; otherwise
`timeout.clearTimeout()` then `if (err) reject(err); resolve();`. -/
def cmdExecAck (st : CmdCallState) (err : Option String) : CmdCallState :=
  if st.elapsed then st
  else
    let st₁ := { st with timerActive := false }
    match err with
    | some e =>
      let o := settle (settle st₁.outcome (.rejected (.backend e))) .fulfilled
      { st₁ with outcome := o }
    | none => { st₁ with outcome := settle st₁.outcome .fulfilled }

inductive CmdEvent where
  | fire
  | ack (err : Option String)
deriving DecidableEq, Repr

def cmdStep (st : CmdCallState) : CmdEvent → CmdCallState
  | .fire => fireTimeout st
  | .ack e => cmdExecAck st e

def runCmd (st : CmdCallState) : List CmdEvent → CmdCallState
  | [] => st
  | e :: evs => runCmd (cmdStep st e) evs

/-! ## Connection lifecycle: the one-time first-connection promise

The constructor (lines 86-88) creates `_waitForFirstConnection` and stores
its resolver; `onPreConnect` (lines 346-372) marks the connection
established, re-arms subscriptions unless a restart is pending, and — if
the resolver is still stored — calls it and clears it. `resolveCount`
counts resolver invocations. -/

structure LifeState where
  connected : Bool
  subscribed : Bool
  waitForRestart : Bool
  resolverPresent : Bool
  resolveCount : Nat
deriving DecidableEq, Repr

/-- Constructor state: disconnected, resolver stored, never resolved. -/
def initLife : LifeState :=
  { connected := false, subscribed := false, waitForRestart := false,
    resolverPresent := true, resolveCount := 0 }

/-- `onPreConnect` (lines 346-372). The bootstrap/ready branches do not
touch the resolver; the resolver block runs last and clears the stored
resolver after calling it. -/
def onPreConnect (st : LifeState) : LifeState :=
  let st₁ := { st with connected := true }
  let st₂ :=
    if st₁.waitForRestart then st₁ else { st₁ with subscribed := true }
  if st₂.resolverPresent then
    { st₂ with
        resolverPresent := false
        resolveCount := st₂.resolveCount + 1 }
  else st₂

/-- The `disconnect` handler (lines 274-279). -/
def onDisconnect (st : LifeState) : LifeState :=
  { st with connected := false, subscribed := false }

/-- The `reconnect` handler (lines 262-272): does not touch the
first-connection resolver. -/
def onReconnect (st : LifeState) : LifeState :=
  let st₁ := { st with connected := true }
  if st₁.waitForRestart then st₁ else { st₁ with subscribed := true }

inductive LifeEvent where
  | preConnect
  | disconnect
  | reconnect
deriving DecidableEq, Repr

def lifeStep (st : LifeState) : LifeEvent → LifeState
  | .preConnect => onPreConnect st
  | .disconnect => onDisconnect st
  | .reconnect => onReconnect st

def runLife (st : LifeState) : List LifeEvent → LifeState
  | [] => st
  | e :: evs => runLife (lifeStep st e) evs

/-! ## `setObject` / `extendObject` (lines 1021-1041, 1094-1114)

JS objects live on a heap of numbered references so that mutation is
observable: `JSON.parse(JSON.stringify(obj))` allocates a fresh deep copy
(the identity on our immutable field lists) and the `delete` statements act
on the copy, leaving the caller's object untouched. -/

abbrev JObj := List (String × String)
abbrev Heap := List (Nat × JObj)

/-- A reference not present in the heap. -/
def freshRef (h : Heap) : Nat := (h.map Prod.fst).foldr max 0 + 1

/-- `JSON.parse(JSON.stringify(o))` on a plain data object. -/
def jsonRoundTrip (o : JObj) : JObj := o

/-- `delete obj[k]`. -/
def deleteField (k : String) (o : JObj) : JObj :=
  o.filter (fun kv => kv.1 != k)

/-- `setObject` (lines 1021-1041): reject `null` without wire traffic;
otherwise deep-copy the argument, delete `from`, `user`, `ts` on the copy
and emit the copy. -/
def setObject (h : Heap) (id : String) (objRef : Option Nat) :
    Heap × Except String (List WireMsg) :=
  match objRef with
  | none => (h, .error "Null object is not allowed")
  | some r =>
    let callerObj := (alookup r h).getD []
    let copy := jsonRoundTrip callerObj
    let obj := deleteField "ts" (deleteField "user" (deleteField "from" copy))
    (aset (freshRef h) obj h, .ok [WireMsg.setObject id obj])

/-- `extendObject` (lines 1094-1114): identical preparation, emitting
`extendObject`. -/
def extendObject (h : Heap) (id : String) (objRef : Option Nat) :
    Heap × Except String (List WireMsg) :=
  match objRef with
  | none => (h, .error "Null object is not allowed")
  | some r =>
    let callerObj := (alookup r h).getD []
    let copy := jsonRoundTrip callerObj
    let obj := deleteField "ts" (deleteField "user" (deleteField "from" copy))
    (aset (freshRef h) obj h, .ok [WireMsg.extendObject id obj])

/-- A feature oracle that supports every feature (used for concrete states). -/
def featAll : String → Bool := fun _ => true

/-- Concrete request-coordinator state: connected, not web, one cached
promise (identity 0) stored under the key "k". -/
def stC1 : ReqState :=
  { connected := true, isWeb := false, supportedFeature := featAll,
    promises := [("k", 0)], nextId := 1 }

/-- Concrete request config with cache key "k" and no forced update. -/
def cfgC1 : RequestConfig := { cacheKey := some "k" }

/-- Concrete request config with cache key "k" and `forceUpdate` set. -/
def cfgC1f : RequestConfig := { cacheKey := some "k", forceUpdate := true }

/-- Concrete state for the admin/connectivity gating witness: running in web
mode, disconnected, with a cached promise under "k". -/
def stC8 : ReqState :=
  { connected := false, isWeb := true, supportedFeature := featAll,
    promises := [("k", 0)], nextId := 1 }

/-- Concrete disconnected state with an empty in-flight cache. -/
def stC8n : ReqState :=
  { connected := false, isWeb := true, supportedFeature := featAll,
    promises := [], nextId := 0 }

/-- Concrete config requiring the admin adapter. -/
def cfgC8a : RequestConfig := { requireAdmin := true }

/-- Registry entry for the pattern "a" with one callback (number 0);
`['a', '$']` is the compiled regex source of the star-free pattern "a". -/
def entA : SubEntry := { reg := ['a', '$'], cbs := [0] }

/-- Concrete connected connection state with the pattern "a" subscribed in
both registries. -/
def stA : ConnState :=
  { connected := true, statesSubscribes := [("a", entA)],
    objectsSubscribes := [("a", entA)], states := [], objects := none }

/-- The same state, disconnected. -/
def stAd : ConnState := { stA with connected := false }

/-- A concrete object document stored in the mirror. -/
def objA : MObject := { rev := none, type := some "state", data := "x" }

/-- An incoming object with a fresh revision and different content. -/
def objB : MObject :=
  { rev := some "2", type := some "state", data := "y" }

/-- An incoming object equal to `objA` up to a fresh revision. -/
def objC : MObject :=
  { rev := some "2", type := some "state", data := "x" }

/-- Concrete state with a loaded object mirror holding `objA` under "a" and
one object subscriber for the pattern "a". -/
def stC6 : ConnState :=
  { connected := true, statesSubscribes := [],
    objectsSubscribes := [("a", entA)], states := [],
    objects := some [("a", objA)] }

/-- A call state after its timeout elapsed and rejected the outcome. -/
def cmdElapsed : CmdCallState :=
  { outcome := some (.rejected .timeout), elapsed := true,
    timerActive := false, onTimeoutCalls := 1 }

/-- A concrete object document carrying `from`, `user`, `ts` and a payload
field. -/
def oC10 : JObj := [("from", "f"), ("user", "u"), ("ts", "t"),
  ("common", "c")]

/-- A heap holding `oC10` under reference 1. -/
def hC10 : Heap := [(1, oC10)]

lemma alookup_aset_self {α β : Type} [DecidableEq α] (k : α) (v : β)
    (l : List (α × β)) : alookup k (aset k v l) = some v := by
  induction l with
  | nil => simp [aset, alookup]
  | cons hd tl ih =>
    obtain ⟨k', v'⟩ := hd
    by_cases h : k' = k
    · simp [aset, alookup, h]
    · simp [aset, alookup, h, ih]

lemma alookup_aset_ne {α β : Type} [DecidableEq α] (k k' : α) (v : β)
    (l : List (α × β)) (h : k' ≠ k) :
    alookup k' (aset k v l) = alookup k' l := by
  induction l with
  | nil => simp [aset, alookup, Ne.symm h]
  | cons hd tl ih =>
    obtain ⟨k₀, v₀⟩ := hd
    by_cases h0 : k₀ = k
    · subst h0
      simp [aset, alookup, Ne.symm h, h]
    · simp only [aset, if_neg h0]
      by_cases h1 : k₀ = k'
      · simp [alookup, h1]
      · simp [alookup, h1, ih]

lemma alookup_aerase_self {α β : Type} [DecidableEq α] (k : α)
    (l : List (α × β)) : alookup k (aerase k l) = none := by
  induction l with
  | nil => simp [aerase, alookup]
  | cons hd tl ih =>
    obtain ⟨k', v'⟩ := hd
    by_cases h : k' = k
    · simp [aerase, alookup, h, ih]
    · simp [aerase, alookup, h, ih]

lemma aset_aset {α β : Type} [DecidableEq α] (k : α) (v v' : β)
    (l : List (α × β)) : aset k v (aset k v' l) = aset k v l := by
  induction l with
  | nil => simp [aset]
  | cons hd tl ih =>
    obtain ⟨k₀, v₀⟩ := hd
    by_cases h : k₀ = k
    · simp [aset, h]
    · simp [aset, h, ih]

lemma alookup_mem {α β : Type} [DecidableEq α] {k : α} {v : β}
    {l : List (α × β)} (h : alookup k l = some v) : (k, v) ∈ l := by
  induction l with
  | nil => simp [alookup] at h
  | cons hd tl ih =>
    obtain ⟨k₀, v₀⟩ := hd
    by_cases h0 : k₀ = k
    · subst h0
      simp [alookup] at h
      simp [h]
    · simp only [alookup, if_neg h0] at h
      simp [ih h]

lemma replaceChar_append (c : Char) (r s t : List Char) :
    replaceChar c r (s ++ t) = replaceChar c r s ++ replaceChar c r t := by
  induction s with
  | nil => simp [replaceChar]
  | cons x xs ih => simp [replaceChar, ih]

lemma compileState_chain (id : List Char) :
    replaceChar '[' ['\\', '['] (replaceChar '+' ['\\', '+']
      (replaceChar ')' ['\\', ')'] (replaceChar '(' ['\\', '(']
        (replaceChar '*' ['.', '*'] (replaceChar '.' ['\\', '.'] id))))) =
    stateEscape id := by
  induction id with
  | nil => simp [replaceChar, stateEscape]
  | cons x xs ih =>
    by_cases h1 : x = '.'
    · subst h1
      simp [replaceChar, replaceChar_append, stateEscape, stateEscapeChar, ih]
    · by_cases h2 : x = '*'
      · subst h2
        simp [replaceChar, replaceChar_append, stateEscape, stateEscapeChar,
          ih]
      · by_cases h3 : x = '('
        · subst h3
          simp [replaceChar, replaceChar_append, stateEscape,
            stateEscapeChar, ih]
        · by_cases h4 : x = ')'
          · subst h4
            simp [replaceChar, replaceChar_append, stateEscape,
              stateEscapeChar, ih]
          · by_cases h5 : x = '+'
            · subst h5
              simp [replaceChar, replaceChar_append, stateEscape,
                stateEscapeChar, ih]
            · by_cases h6 : x = '['
              · subst h6
                simp [replaceChar, replaceChar_append, stateEscape,
                  stateEscapeChar, ih]
              · simp [replaceChar, replaceChar_append, stateEscape,
                  stateEscapeChar, ih, h1, h2, h3, h4, h5, h6]

lemma compileObject_chain (id : List Char) :
    replaceChar '*' ['.', '*'] (replaceChar '.' ['\\', '.'] id) =
    objEscape id := by
  induction id with
  | nil => simp [replaceChar, objEscape]
  | cons x xs ih =>
    by_cases h1 : x = '.'
    · subst h1
      simp [replaceChar, replaceChar_append, objEscape, objEscapeChar, ih]
    · by_cases h2 : x = '*'
      · subst h2
        simp [replaceChar, replaceChar_append, objEscape, objEscapeChar, ih]
      · simp [replaceChar, replaceChar_append, objEscape, objEscapeChar, ih,
          h1, h2]

lemma star_mem_stateEscapeChar (c : Char) :
    '*' ∈ stateEscapeChar c ↔ c = '*' := by
  by_cases h1 : c = '.'
  · subst h1; simp [stateEscapeChar]
  · by_cases h2 : c = '*'
    · subst h2; simp [stateEscapeChar]
    · by_cases h3 : c = '('
      · subst h3; simp [stateEscapeChar]
      · by_cases h4 : c = ')'
        · subst h4; simp [stateEscapeChar]
        · by_cases h5 : c = '+'
          · subst h5; simp [stateEscapeChar]
          · by_cases h6 : c = '['
            · subst h6; simp [stateEscapeChar]
            · simp [stateEscapeChar, h1, h2, h3, h4, h5, h6, eq_comm]

lemma star_mem_stateEscape (id : List Char) :
    '*' ∈ stateEscape id ↔ '*' ∈ id := by
  induction id with
  | nil => simp [stateEscape]
  | cons x xs ih =>
    simp [stateEscape, ih, star_mem_stateEscapeChar, eq_comm]

lemma star_mem_objEscapeChar (c : Char) :
    '*' ∈ objEscapeChar c ↔ c = '*' := by
  by_cases h1 : c = '.'
  · subst h1; simp [objEscapeChar]
  · by_cases h2 : c = '*'
    · subst h2; simp [objEscapeChar]
    · simp [objEscapeChar, h1, h2, eq_comm]

lemma star_mem_objEscape (id : List Char) :
    '*' ∈ objEscape id ↔ '*' ∈ id := by
  induction id with
  | nil => simp [objEscape]
  | cons x xs ih =>
    simp [objEscape, ih, star_mem_objEscapeChar, eq_comm]

lemma compileStatePattern_eq (id : List Char) :
    compileStatePattern id =
      stateEscape id ++ (if '*' ∈ id then [] else ['$']) := by
  unfold compileStatePattern
  rw [compileState_chain]
  by_cases h : '*' ∈ id
  · simp [star_mem_stateEscape, h]
  · simp [star_mem_stateEscape, h]

lemma compileObjectPattern_eq (id : List Char) :
    compileObjectPattern id =
      objEscape id ++ (if '*' ∈ id then [] else ['$']) := by
  unfold compileObjectPattern
  rw [compileObject_chain]
  by_cases h : '*' ∈ id
  · simp [star_mem_objEscape, h]
  · simp [star_mem_objEscape, h]

/-- C2 counterexample: the object-pattern compilation does NOT escape `(`:
compiling the pattern "(" yields the regex source "($" with no backslash,
while the claim demands that `(` be escaped by both registries. -/
theorem C2_object_escape_counterexample :
    compileObjectPattern ['('] = ['(', '$']
    ∧ '\\' ∉ compileObjectPattern ['('] := by decide

/-- C2 (amended): the state-pattern compilation escapes the literals
`. ( ) + [`, rewrites `*` to `.*` and appends the end anchor iff the pattern
contains no `*`; the object-pattern compilation escapes only `.`, rewrites
`*` to `.*` and appends the end anchor iff the pattern contains no `*`. -/
theorem C2_pattern_compilation_amended (id : List Char) :
    compileStatePattern id =
      stateEscape id ++ (if '*' ∈ id then [] else ['$'])
    ∧ compileObjectPattern id =
      objEscape id ++ (if '*' ∈ id then [] else ['$']) :=
  ⟨compileStatePattern_eq id, compileObjectPattern_eq id⟩

lemma stateSafe_no_star {p : List Char}
    (hsafe : ∀ c ∈ p, stateSafeChar c = true) : '*' ∉ p := by
  intro hmem
  have := hsafe '*' hmem
  simp [stateSafeChar] at this

lemma stateEscapeChar_safe {c : Char} (hc : stateSafeChar c = true) :
    stateEscapeChar c = ['\\', c] ∨
      (stateEscapeChar c = [c] ∧ isRegexSpecial c = false ∧ c ≠ '.' ∧
        c ≠ '$' ∧ c ≠ '*' ∧ c ≠ '+' ∧ c ≠ '\\') := by
  simp only [stateSafeChar, Bool.or_eq_true, Bool.not_eq_true',
    Bool.or_eq_false_iff, decide_eq_false_iff_not] at hc
  obtain ⟨⟨⟨⟨⟨⟨⟨⟨h1, h2⟩, h3⟩, h4⟩, h5⟩, h6⟩, h7⟩, h8⟩, h9⟩ := hc
  by_cases hdot : c = '.'
  · subst hdot; left; simp [stateEscapeChar]
  · by_cases hl : c = '('
    · subst hl; left; simp [stateEscapeChar]
    · by_cases hr : c = ')'
      · subst hr; left; simp [stateEscapeChar]
      · by_cases hp : c = '+'
        · subst hp; left; simp [stateEscapeChar]
        · by_cases hb : c = '['
          · subst hb; left; simp [stateEscapeChar]
          · right
            refine ⟨?_, ?_, hdot, h3, h9, hp, h1⟩
            · simp [stateEscapeChar, hdot, h9, hl, hr, hp, hb]
            · simp [isRegexSpecial, hl, hr, hb, h6, h2, h4, h5, h7, h8]

lemma lexRegex_stateEscape {p : List Char}
    (hsafe : ∀ c ∈ p, stateSafeChar c = true) :
    lexRegex (stateEscape p ++ ['$']) = some (p.map RAtom.lit ++ [.endA]) := by
  induction p with
  | nil => simp [stateEscape, lexRegex]
  | cons c p' ih =>
    have hc := hsafe c (by simp)
    have ih' := ih (fun x hx => hsafe x (by simp [hx]))
    rcases stateEscapeChar_safe hc with h | ⟨h, hspec, hdot, hdol, hstar, hplus, hbs⟩
    · simp [stateEscape, h, lexRegex, ih']
    · simp only [stateEscape, h, List.singleton_append]
      rw [lexRegex.eq_def]
      simp [hbs, hdot, hdol, hstar, hplus, hspec, ih']

lemma objSafe_no_star {p : List Char}
    (hsafe : ∀ c ∈ p, objSafeChar c = true) : '*' ∉ p := by
  intro hmem
  have := hsafe '*' hmem
  simp [objSafeChar, stateSafeChar] at this

lemma objEscapeChar_safe {c : Char} (hc : objSafeChar c = true) :
    objEscapeChar c = ['\\', c] ∨
      (objEscapeChar c = [c] ∧ isRegexSpecial c = false ∧ c ≠ '.' ∧
        c ≠ '$' ∧ c ≠ '*' ∧ c ≠ '+' ∧ c ≠ '\\') := by
  simp only [objSafeChar, stateSafeChar, Bool.and_eq_true, Bool.or_eq_true,
    Bool.not_eq_true', Bool.or_eq_false_iff, decide_eq_false_iff_not] at hc
  obtain ⟨⟨⟨⟨⟨⟨⟨⟨⟨h1, h2⟩, h3⟩, h4⟩, h5⟩, h6⟩, h7⟩, h8⟩, h9⟩,
    ⟨⟨⟨hl, hr⟩, hp⟩, hb⟩⟩ := hc
  by_cases hdot : c = '.'
  · subst hdot; left; simp [objEscapeChar]
  · right
    refine ⟨?_, ?_, hdot, h3, h9, hp, h1⟩
    · simp [objEscapeChar, hdot, h9]
    · simp [isRegexSpecial, hl, hr, hb, h6, h2, h4, h5, h7, h8]

lemma lexRegex_objEscape {p : List Char}
    (hsafe : ∀ c ∈ p, objSafeChar c = true) :
    lexRegex (objEscape p ++ ['$']) = some (p.map RAtom.lit ++ [.endA]) := by
  induction p with
  | nil => simp [objEscape, lexRegex]
  | cons c p' ih =>
    have hc := hsafe c (by simp)
    have ih' := ih (fun x hx => hsafe x (by simp [hx]))
    rcases objEscapeChar_safe hc with h | ⟨h, hspec, hdot, hdol, hstar, hplus, hbs⟩
    · simp [objEscape, h, lexRegex, ih']
    · simp only [objEscape, h, List.singleton_append]
      rw [lexRegex.eq_def]
      simp [hbs, hdot, hdol, hstar, hplus, hspec, ih']

lemma applyMarks_lits (p : List Char) :
    applyMarks (p.map RAtom.lit ++ [.endA]) =
      some (p.map RTok.lit ++ [.endAnchor]) := by
  induction p with
  | nil => simp [applyMarks]
  | cons c p' ih =>
    cases p' with
    | nil => simp [applyMarks]
    | cons c' p'' =>
      simp only [List.map_cons, List.cons_append] at ih ⊢
      rw [show applyMarks (RAtom.lit c :: RAtom.lit c' ::
          (List.map RAtom.lit p'' ++ [RAtom.endA])) =
        (applyMarks (RAtom.lit c' :: (List.map RAtom.lit p'' ++ [RAtom.endA]))).map
          (RTok.lit c :: ·) from rfl]
      rw [ih]
      simp

lemma parseRegex_statePattern {p : List Char}
    (hsafe : ∀ c ∈ p, stateSafeChar c = true) :
    parseRegex (compileStatePattern p) =
      some (p.map RTok.lit ++ [.endAnchor]) := by
  have hns : '*' ∉ p := stateSafe_no_star hsafe
  rw [parseRegex, compileStatePattern_eq, if_neg hns,
    lexRegex_stateEscape hsafe]
  simp [applyMarks_lits]

lemma parseRegex_objectPattern {p : List Char}
    (hsafe : ∀ c ∈ p, objSafeChar c = true) :
    parseRegex (compileObjectPattern p) =
      some (p.map RTok.lit ++ [.endAnchor]) := by
  have hns : '*' ∉ p := objSafe_no_star hsafe
  rw [parseRegex, compileObjectPattern_eq, if_neg hns,
    lexRegex_objEscape hsafe]
  simp [applyMarks_lits]

lemma matchFuel_lit_anchor (p : List Char) : ∀ (f : Nat) (s : List Char),
    2 * (p.length + 1) + s.length + 1 ≤ f →
    (matchFuel f (p.map RTok.lit ++ [RTok.endAnchor]) s = true ↔ s = p) := by
  induction p with
  | nil =>
    intro f s hf
    obtain ⟨f₁, rfl⟩ : ∃ f₁, f = f₁ + 1 := ⟨f - 1, by omega⟩
    have hf₁ : 1 ≤ f₁ := by omega
    obtain ⟨f₂, rfl⟩ : ∃ f₂, f₁ = f₂ + 1 := ⟨f₁ - 1, by omega⟩
    simp [matchFuel, List.isEmpty_iff]
  | cons c p' ih =>
    intro f s hf
    obtain ⟨f₁, rfl⟩ : ∃ f₁, f = f₁ + 1 := ⟨f - 1, by omega⟩
    cases s with
    | nil => simp [matchFuel]
    | cons x xs =>
      simp only [List.map_cons, List.cons_append]
      rw [show matchFuel (f₁ + 1)
          (RTok.lit c :: (p'.map RTok.lit ++ [RTok.endAnchor])) (x :: xs) =
          if x = c then matchFuel f₁ (p'.map RTok.lit ++ [RTok.endAnchor]) xs
          else false from rfl]
      by_cases hx : x = c
      · rw [if_pos hx, ih f₁ xs (by simp at hf ⊢; omega)]
        simp [hx]
      · rw [if_neg hx]
        simp [hx]

lemma matchHere_lit_anchor (p s : List Char) :
    (matchHere (p.map RTok.lit ++ [RTok.endAnchor]) s = true ↔ s = p) := by
  apply matchFuel_lit_anchor
  simp [Nat.mul_add]

lemma rtest_lit_anchor (p : List Char) : ∀ id : List Char,
    (rtest (p.map RTok.lit ++ [RTok.endAnchor]) id = true ↔ p <:+ id) := by
  intro id
  induction id with
  | nil =>
    rw [rtest, matchHere_lit_anchor]
    simp [List.suffix_nil, eq_comm]
  | cons x xs ih =>
    rw [rtest, Bool.or_eq_true, matchHere_lit_anchor, ih,
      List.suffix_cons_iff]
    constructor
    · rintro (h | h)
      · exact Or.inl h.symm
      · exact Or.inr h
    · rintro (h | h)
      · exact Or.inl h.symm
      · exact Or.inr h

/-- C3 counterexample: the compiled matchers are not anchored at the start.
The star-free state pattern "b.c" accepts the identifier "a.b.c" although
the identifier is not equal to the pattern, refuting the claimed
"accepts iff exactly equal". -/
theorem C3_exact_match_counterexample :
    stateMatcherAccepts "b.c".toList "a.b.c".toList = true
    ∧ "a.b.c".toList ≠ "b.c".toList := by decide

/-- C3 (amended): for a star-free pattern whose characters compile to
literal regex characters, the compiled matcher (state and object registry
alike) accepts an identifier iff the pattern is a contiguous suffix of the
identifier: the appended `$` anchors the end, but nothing anchors the
start, so suffix matches succeed; exact equality is only the special case.
Matching is case-sensitive and unnormalized (literal character equality). -/
theorem C3_star_free_matching_amended (p q id : List Char)
    (hp : ∀ c ∈ p, stateSafeChar c = true)
    (hq : ∀ c ∈ q, objSafeChar c = true) :
    (stateMatcherAccepts p id = true ↔ p <:+ id)
    ∧ (objectMatcherAccepts q id = true ↔ q <:+ id) := by
  constructor
  · unfold stateMatcherAccepts regTest
    rw [parseRegex_statePattern hp]
    exact rtest_lit_anchor p id
  · unfold objectMatcherAccepts regTest
    rw [parseRegex_objectPattern hq]
    exact rtest_lit_anchor q id

/-- C3 witness: the amended matching law evaluated on the concrete star-free
pattern "a.b" against the identifier "x.a.b". -/
theorem C3_star_free_matching_amended_witness :
    (stateMatcherAccepts "a.b".toList "x.a.b".toList = true ↔
      "a.b".toList <:+ "x.a.b".toList)
    ∧ (objectMatcherAccepts "a.b".toList "x.a.b".toList = true ↔
      "a.b".toList <:+ "x.a.b".toList) :=
  C3_star_free_matching_amended "a.b".toList "a.b".toList "x.a.b".toList
    (by decide) (by decide)

/-- C1: a request with a truthy cache key and `forceUpdate` false whose key
already has an entry returns the stored (possibly still-pending) outcome and
leaves the cache untouched, so a second call with the same key yields the
same outcome instance; a request with `forceUpdate` true bypasses the cached
entry, returns a fresh outcome and replaces the entry stored under the key. -/
theorem C1_request_cache_dedup
    (st : ReqState) (cfg cfg' : RequestConfig) (k : String) (p : Nat)
    (hk : k ≠ "")
    (hkey : cfg.cacheKey = some k) (hforce : cfg.forceUpdate = false)
    (hadmin : (cfg.requireAdmin && st.isWeb) = false)
    (hcache : alookup k st.promises = some p)
    (hkey' : cfg'.cacheKey = some k) (hforce' : cfg'.forceUpdate = true)
    (hadmin' : (cfg'.requireAdmin && st.isWeb) = false)
    (hconn : st.connected = true)
    (hfeat : checkFeatures st cfg'.requireFeatures = true) :
    request st cfg = (.outcome p, st)
    ∧ request (request st cfg).2 cfg = (.outcome p, st)
    ∧ (request st cfg').1 = .outcome st.nextId
    ∧ alookup k (request st cfg').2.promises = some st.nextId := by
  have h1 : request st cfg = (.outcome p, st) := by
    simp [request, cachedHit, hkey, hk, hforce, hadmin, hcache]
  refine ⟨h1, ?_, ?_, ?_⟩
  · rw [h1]
    exact h1
  · simp [request, cachedHit, hkey', hforce', hadmin', hconn, hfeat, hk]
  · simp [request, cachedHit, hkey', hforce', hadmin', hconn, hfeat, hk,
      alookup_aset_self]

/-- C1 witness: the guarantees evaluated on a concrete connected state whose
cache holds promise 0 under "k". -/
theorem C1_request_cache_dedup_witness :
    request stC1 cfgC1 = (.outcome 0, stC1)
    ∧ request (request stC1 cfgC1).2 cfgC1 = (.outcome 0, stC1)
    ∧ (request stC1 cfgC1f).1 = .outcome stC1.nextId
    ∧ alookup "k" (request stC1 cfgC1f).2.promises = some stC1.nextId :=
  C1_request_cache_dedup stC1 cfgC1 cfgC1f "k" 0 (by decide) rfl rfl rfl
    (by decide) rfl rfl rfl rfl rfl

/-- C8: gating order of `request`. A call requiring admin while running in
web mode is rejected with `NOT_ADMIN` before any cache lookup; a call with a
usable cache hit returns the cached outcome even while disconnected (the
cache check precedes the connectivity check); a call with no usable cache
hit while disconnected is rejected with `NOT_CONNECTED`. -/
theorem C8_request_gating_order
    (st stN : ReqState) (cfgA cfg : RequestConfig) (k : String) (p : Nat)
    (hA1 : cfgA.requireAdmin = true) (hA2 : st.isWeb = true)
    (hadmin : cfg.requireAdmin = false)
    (hkey : cfg.cacheKey = some k) (hk : k ≠ "")
    (hforce : cfg.forceUpdate = false)
    (hcache : alookup k st.promises = some p)
    (hconn : st.connected = false)
    (hN : cachedHit stN cfg = none) (hNconn : stN.connected = false) :
    request st cfgA = (.rejected .NOT_ADMIN, st)
    ∧ request st cfg = (.outcome p, st)
    ∧ request stN cfg = (.rejected .NOT_CONNECTED, stN) := by
  refine ⟨?_, ?_, ?_⟩
  · simp [request, hA1, hA2]
  · simp [request, cachedHit, hadmin, hkey, hk, hforce, hcache]
  · simp [request, hadmin, hN, hNconn]

/-- C8 witness: the gating order evaluated on concrete disconnected web-mode
states, one with and one without a cached promise under "k". -/
theorem C8_request_gating_order_witness :
    request stC8 cfgC8a = (.rejected .NOT_ADMIN, stC8)
    ∧ request stC8 cfgC1 = (.outcome 0, stC8)
    ∧ request stC8n cfgC1 = (.rejected .NOT_CONNECTED, stC8n) :=
  C8_request_gating_order stC8 stC8n cfgC8a cfgC1 "k" 0 rfl rfl rfl rfl
    (by decide) rfl (by decide) rfl rfl rfl

/-- C5 counterexample: in a disconnected client, subscribing an object
pattern and then unsubscribing its only callback leaves a reachable
registry state containing an entry with an empty callback list — the
deletion in `unsubscribeObject` is guarded by `this.connected`. -/
theorem C5_empty_entry_counterexample :
    alookup "a" ((unsubscribeObject ((subscribeObject initConn "a" 0).1)
      "a" (some 0)).1.objectsSubscribes) =
      some { reg := ['a', '$'], cbs := [] } := by decide

/-- C5 (amended): an unsubscribe that empties a STATE entry's callback list
always removes the entry, emitting a wire unsubscribe exactly when
connected; an unsubscribe that empties an OBJECT entry's callback list
removes it (with a wire unsubscribe) only while connected — while
disconnected the emptied entry remains in the registry. -/
theorem C5_unsubscribe_empty_amended
    (st stC stD : ConnState) (id : String) (cb : Option Nat)
    (eS eO eO' : SubEntry)
    (hS : alookup id st.statesSubscribes = some eS)
    (hSe : newCbs cb eS = [])
    (hCconn : stC.connected = true)
    (hO : alookup id stC.objectsSubscribes = some eO)
    (hOe : newCbs cb eO = [])
    (hDconn : stD.connected = false)
    (hO' : alookup id stD.objectsSubscribes = some eO')
    (hOe' : newCbs cb eO' = []) :
    alookup id (unsubscribeState st id cb).1.statesSubscribes = none
    ∧ (unsubscribeState st id cb).2 =
        (if st.connected then [WireMsg.unsubscribe id] else [])
    ∧ alookup id (unsubscribeObject stC id cb).1.objectsSubscribes = none
    ∧ (unsubscribeObject stC id cb).2 = [WireMsg.unsubscribeObjects id]
    ∧ alookup id (unsubscribeObject stD id cb).1.objectsSubscribes =
        some { eO' with cbs := [] }
    ∧ (unsubscribeObject stD id cb).2 = [] := by
  refine ⟨?_, ?_, ?_, ?_, ?_, ?_⟩
  · simp [unsubscribeState, hS, hSe, alookup_aerase_self]
  · simp [unsubscribeState, hS, hSe]
  · simp [unsubscribeObject, hO, hOe, hCconn, alookup_aerase_self]
  · simp [unsubscribeObject, hO, hOe, hCconn]
  · simp [unsubscribeObject, hO', hOe', hDconn, alookup_aset_self]
  · simp [unsubscribeObject, hO', hOe', hDconn]

/-- C5 witness: the amended unsubscribe behavior evaluated on the concrete
states `stA` (connected) and `stAd` (disconnected) for the pattern "a". -/
theorem C5_unsubscribe_empty_amended_witness :
    alookup "a" (unsubscribeState stA "a" (some 0)).1.statesSubscribes =
      none
    ∧ (unsubscribeState stA "a" (some 0)).2 =
        (if stA.connected then [WireMsg.unsubscribe "a"] else [])
    ∧ alookup "a"
        (unsubscribeObject stA "a" (some 0)).1.objectsSubscribes = none
    ∧ (unsubscribeObject stA "a" (some 0)).2 =
        [WireMsg.unsubscribeObjects "a"]
    ∧ alookup "a"
        (unsubscribeObject stAd "a" (some 0)).1.objectsSubscribes =
        some { entA with cbs := [] }
    ∧ (unsubscribeObject stAd "a" (some 0)).2 = [] :=
  C5_unsubscribe_empty_amended stA stA stAd "a" (some 0) entA entA entA
    (by decide) (by decide) rfl (by decide) (by decide) rfl (by decide)
    (by decide)

lemma objectFanOut_oldObj (subs : List (String × SubEntry)) (id : String)
    (obj : Option MObject) (old : Option OldObject) :
    (objectFanOut subs id obj old).all (fun inv => inv.oldObj == old) =
      true := by
  simp only [objectFanOut, List.all_eq_true, List.mem_flatMap,
    List.mem_map, List.mem_filter]
  rintro inv ⟨e, ⟨hmem, hcond⟩, cb, hcb, rfl⟩
  simp

/-- C6 counterexample: an incoming object deep-equal to the stored one
leaves `changed` false (so `props.onObjectChange` is not called), yet the
registered callbacks are still invoked WITH the previous summary — the
summary is not "passed only when the object actually changed". -/
theorem C6_prev_summary_counterexample :
    (objectChange stC6 "a" (some objA)).2.2 = false
    ∧ (objectChange stC6 "a" (some objA)).2.1 =
        [{ cb := 0, id := "a", obj := some objA,
           oldObj := some { _id := "a", type := some "state" } }] := by
  decide

/-- C6 (amended): with a prior entry `stored` under `id`, a non-null
incoming object first stamps the stored revision forward (when the incoming
`_rev` is truthy), then — if the stamped entry still differs — replaces the
entry wholesale (never merging) with `changed` true; when the stamped entry
equals the incoming object only the revision stamp remains and `changed` is
false (gating `props.onObjectChange`); `null` deletes the entry; without a
prior entry the object is inserted (previous summary `none`) and `null` is
a no-op. The previous summary `{_id, type}` of the prior entry is computed
whenever a prior entry exists — changed or not — and every fan-out
invocation carries it. -/
theorem C6_objectChange_mirror_amended
    (objs : List (String × MObject)) (id idN : String)
    (stored o₁ o₂ : MObject) (subs : List (String × SubEntry))
    (obj : Option MObject) (old : Option OldObject)
    (hstored : alookup id objs = some stored)
    (hN : alookup idN objs = none)
    (h1 : (if truthyRev o₁.rev then { stored with rev := o₁.rev }
        else stored) ≠ o₁)
    (h2 : (if truthyRev o₂.rev then { stored with rev := o₂.rev }
        else stored) = o₂) :
    objectChangeCore objs id (some o₁) =
      (aset id o₁ objs, some { _id := id, type := stored.type }, true)
    ∧ objectChangeCore objs id (some o₂) =
      ((if truthyRev o₂.rev then aset id { stored with rev := o₂.rev } objs
        else objs), some { _id := id, type := stored.type }, false)
    ∧ objectChangeCore objs id none =
      (aerase id objs, some { _id := id, type := stored.type }, true)
    ∧ objectChangeCore objs idN (some o₁) =
      (aset idN o₁ objs, none, true)
    ∧ objectChangeCore objs idN none = (objs, none, false)
    ∧ (objectFanOut subs id obj old).all
        (fun inv => inv.oldObj == old) = true := by
  refine ⟨?_, ?_, ?_, ?_, ?_, objectFanOut_oldObj subs id obj old⟩
  · by_cases hrev : truthyRev o₁.rev
    · rw [if_pos hrev] at h1
      simp [objectChangeCore, hrev, hstored, alookup_aset_self, h1,
        aset_aset]
    · rw [if_neg hrev] at h1
      simp [objectChangeCore, hrev, hstored, h1]
  · by_cases hrev : truthyRev o₂.rev
    · rw [if_pos hrev] at h2
      simp [objectChangeCore, hrev, hstored, alookup_aset_self, h2]
      rw [← h2]
    · rw [if_neg hrev] at h2
      simp [objectChangeCore, hrev, hstored, h2]
  · simp [objectChangeCore, hstored]
  · simp [objectChangeCore, hN]
  · simp [objectChangeCore, hN]

/-- C6 witness: the amended mirror maintenance evaluated on a concrete
mirror holding `objA` under "a": `objB` (new revision, new content)
replaces wholesale; `objC` (new revision, same content) only stamps the
revision with `changed` false; `null` deletes; "b" is absent. -/
theorem C6_objectChange_mirror_amended_witness :
    objectChangeCore [("a", objA)] "a" (some objB) =
      (aset "a" objB [("a", objA)],
        some { _id := "a", type := some "state" }, true)
    ∧ objectChangeCore [("a", objA)] "a" (some objC) =
      ((if truthyRev objC.rev then
          aset "a" { objA with rev := objC.rev } [("a", objA)]
        else [("a", objA)]),
        some { _id := "a", type := some "state" }, false)
    ∧ objectChangeCore [("a", objA)] "a" none =
      (aerase "a" [("a", objA)],
        some { _id := "a", type := some "state" }, true)
    ∧ objectChangeCore [("a", objA)] "b" (some objB) =
      (aset "b" objB [("a", objA)], none, true)
    ∧ objectChangeCore [("a", objA)] "b" none = ([("a", objA)], none, false)
    ∧ (objectFanOut [("a", entA)] "a" (some objA)
        (some { _id := "a", type := some "state" })).all
        (fun inv => inv.oldObj ==
          some { _id := "a", type := some "state" }) = true :=
  C6_objectChange_mirror_amended [("a", objA)] "a" "b" objA objB objC
    [("a", entA)] (some objA) (some { _id := "a", type := some "state" })
    (by decide) (by decide) (by decide) (by decide)

/-- C7 counterexample: a state-change notification is fanned out to the
matching subscriber, yet the local `states` cache is NOT updated — after
processing, the cache still has no entry for the identifier. -/
theorem C7_state_cache_counterexample :
    (stateChange stA "a" (some "v")).2 =
      [{ cb := 0, id := "a", state := some "v" }]
    ∧ alookup "a" (stateChange stA "a" (some "v")).1.states ≠
        some "v" := by decide

/-- C7 (amended): `stateChange` leaves the connection state — in particular
the `states` cache — completely unchanged; its only effect is the fan-out:
an invocation is produced exactly for each callback of each registry entry
whose matcher accepts the identifier, carrying the incoming payload. The
`states` cache is only replaced by `getStates` (line 804), never by
incoming state-change notifications. -/
theorem C7_stateChange_frame_amended (st : ConnState) (id : String)
    (s : Option StateVal) :
    (stateChange st id s).1 = st
    ∧ ∀ inv : StInvocation, inv ∈ (stateChange st id s).2 ↔
        ∃ p e, (p, e) ∈ st.statesSubscribes
          ∧ regTest e.reg id.toList = true ∧ inv.cb ∈ e.cbs
          ∧ inv.id = id ∧ inv.state = s := by
  refine ⟨rfl, ?_⟩
  intro inv
  simp only [stateChange, List.mem_flatMap, List.mem_filter,
    List.mem_map]
  constructor
  · rintro ⟨⟨p, e⟩, ⟨hmem, hreg⟩, cb, hcb, rfl⟩
    exact ⟨p, e, hmem, hreg, hcb, rfl, rfl⟩
  · rintro ⟨p, e, hmem, hreg, hcb, hid, hs⟩
    refine ⟨⟨p, e⟩, ⟨hmem, hreg⟩, inv.cb, hcb, ?_⟩
    cases inv
    simp only at hid hs
    rw [hid, hs]

lemma runCmd_inert (evs : List CmdEvent) : ∀ st : CmdCallState,
    st.timerActive = false → (∀ e ∈ evs, e = CmdEvent.fire) →
    runCmd st evs = st := by
  induction evs with
  | nil => intro st _ _; rfl
  | cons e rest ih =>
    intro st hAct hall
    have he : e = CmdEvent.fire := hall e (by simp)
    subst he
    rw [runCmd, cmdStep, fireTimeout, if_neg (by simp [hAct])]
    exact ih st hAct (fun e he => hall e (by simp [he]))

/-- C4: with the timeout armed (not explicitly disabled) and an executor
that never completes (only timer events occur), the outcome is rejected
with `TIMEOUT` and `onTimeout` runs exactly once; and once the `elapsed`
flag is set, any transport acknowledgement for the call is discarded — the
state, including the already-rejected outcome, is unchanged. -/
theorem C4_timeout_behavior (evs : List CmdEvent) (st' : CmdCallState)
    (err : Option String) (hne : evs ≠ [])
    (hall : ∀ e ∈ evs, e = CmdEvent.fire)
    (hel : st'.elapsed = true) :
    (runCmd (initCmdCall false) evs).outcome =
      some (.rejected .timeout)
    ∧ (runCmd (initCmdCall false) evs).onTimeoutCalls = 1
    ∧ (runCmd (initCmdCall false) evs).elapsed = true
    ∧ cmdExecAck st' err = st' := by
  have hdisc : cmdExecAck st' err = st' := by simp [cmdExecAck, hel]
  obtain ⟨e, rest, rfl⟩ : ∃ e rest, evs = e :: rest := by
    cases evs with
    | nil => exact absurd rfl hne
    | cons e rest => exact ⟨e, rest, rfl⟩
  have he : e = CmdEvent.fire := hall e (by simp)
  subst he
  have hstep : cmdStep (initCmdCall false) CmdEvent.fire =
      { outcome := some (.rejected .timeout), elapsed := true,
        timerActive := false, onTimeoutCalls := 1 } := by
    simp [cmdStep, fireTimeout, initCmdCall, settle]
  rw [runCmd, hstep,
    runCmd_inert rest _ rfl (fun e he => hall e (by simp [he]))]
  exact ⟨rfl, rfl, rfl, hdisc⟩

/-- C4 witness: the timeout behavior evaluated on the one-event trace
consisting of the timer expiry, and the discard of a successful transport
acknowledgement arriving after expiry. -/
theorem C4_timeout_behavior_witness :
    (runCmd (initCmdCall false) [CmdEvent.fire]).outcome =
      some (.rejected .timeout)
    ∧ (runCmd (initCmdCall false) [CmdEvent.fire]).onTimeoutCalls = 1
    ∧ (runCmd (initCmdCall false) [CmdEvent.fire]).elapsed = true
    ∧ cmdExecAck cmdElapsed none = cmdElapsed :=
  C4_timeout_behavior [CmdEvent.fire] cmdElapsed none (by decide)
    (by decide) rfl

lemma runLife_frozen (evs : List LifeEvent) : ∀ st : LifeState,
    st.resolverPresent = false →
    (runLife st evs).resolveCount = st.resolveCount ∧
      (runLife st evs).resolverPresent = false := by
  induction evs with
  | nil => intro st h; exact ⟨rfl, h⟩
  | cons e rest ih =>
    intro st h
    have hstep : (lifeStep st e).resolveCount = st.resolveCount ∧
        (lifeStep st e).resolverPresent = false := by
      cases e with
      | preConnect =>
        simp only [lifeStep, onPreConnect]
        by_cases hw : st.waitForRestart <;> simp [hw, h]
      | disconnect => simp [lifeStep, onDisconnect, h]
      | reconnect =>
        simp only [lifeStep, onReconnect]
        by_cases hw : st.waitForRestart <;> simp [hw, h]
    rw [runLife]
    have := ih (lifeStep st e) hstep.2
    rw [this.1, hstep.1]
    exact ⟨rfl, this.2⟩

lemma runLife_main (evs : List LifeEvent) : ∀ st : LifeState,
    st.resolverPresent = true → st.resolveCount = 0 →
    (runLife st evs).resolveCount =
      (if LifeEvent.preConnect ∈ evs then 1 else 0) ∧
    ((runLife st evs).resolverPresent = true ↔
      LifeEvent.preConnect ∉ evs) := by
  induction evs with
  | nil =>
    intro st hp hc
    simp [runLife, hp, hc]
  | cons e rest ih =>
    intro st hp hc
    cases e with
    | preConnect =>
      have hstep : (lifeStep st LifeEvent.preConnect).resolveCount = 1 ∧
          (lifeStep st LifeEvent.preConnect).resolverPresent = false := by
        simp only [lifeStep, onPreConnect]
        by_cases hw : st.waitForRestart <;> simp [hw, hp, hc]
      rw [runLife]
      have hfr := runLife_frozen rest _ hstep.2
      rw [hfr.1, hstep.1]
      simp [hfr.2]
    | disconnect =>
      have hp' : (lifeStep st LifeEvent.disconnect).resolverPresent =
          true := by simp [lifeStep, onDisconnect, hp]
      have hc' : (lifeStep st LifeEvent.disconnect).resolveCount = 0 := by
        simp [lifeStep, onDisconnect, hc]
      rw [runLife]
      have := ih _ hp' hc'
      simpa using this
    | reconnect =>
      have hp' : (lifeStep st LifeEvent.reconnect).resolverPresent =
          true := by
        simp only [lifeStep, onReconnect]
        by_cases hw : st.waitForRestart <;> simp [hw, hp]
      have hc' : (lifeStep st LifeEvent.reconnect).resolveCount = 0 := by
        simp only [lifeStep, onReconnect]
        by_cases hw : st.waitForRestart <;> simp [hw, hc]
      rw [runLife]
      have := ih _ hp' hc'
      simpa using this

/-- C9: over every event trace from construction, the one-time
first-connection resolver is called exactly once if a successful handshake
(`onPreConnect`) ever occurs and never otherwise; once cleared it is never
re-created, so the count never exceeds 1 regardless of later
disconnect/reconnect cycles. -/
theorem C9_first_connection_resolved_once (evs : List LifeEvent) :
    (runLife initLife evs).resolveCount =
      (if LifeEvent.preConnect ∈ evs then 1 else 0)
    ∧ ((runLife initLife evs).resolverPresent = true ↔
        LifeEvent.preConnect ∉ evs)
    ∧ (runLife initLife evs).resolveCount ≤ 1 := by
  have h := runLife_main evs initLife rfl rfl
  refine ⟨h.1, h.2, ?_⟩
  rw [h.1]
  by_cases hm : LifeEvent.preConnect ∈ evs <;> simp [hm]

lemma alookup_deleteField_self (k : String) (o : JObj) :
    alookup k (deleteField k o) = none := by
  induction o with
  | nil => simp [deleteField, alookup]
  | cons kv rest ih =>
    obtain ⟨k₀, v₀⟩ := kv
    by_cases h : k₀ = k
    · subst h
      simp only [deleteField, List.filter_cons]
      rw [if_neg (by simp)]
      simpa [deleteField] using ih
    · simp only [deleteField, List.filter_cons]
      rw [if_pos (by simp [h])]
      simp only [alookup, if_neg h]
      simpa [deleteField] using ih

lemma alookup_deleteField_ne (k k' : String) (o : JObj) (h : k' ≠ k) :
    alookup k' (deleteField k o) = alookup k' o := by
  induction o with
  | nil => simp [deleteField, alookup]
  | cons kv rest ih =>
    obtain ⟨k₀, v₀⟩ := kv
    by_cases h0 : k₀ = k
    · subst h0
      simp only [deleteField, List.filter_cons]
      rw [if_neg (by simp)]
      simp only [alookup, if_neg (Ne.symm h)]
      simpa [deleteField] using ih
    · simp only [deleteField, List.filter_cons]
      rw [if_pos (by simp [h0])]
      simp only [alookup]
      by_cases h1 : k₀ = k'
      · simp [h1]
      · simpa [deleteField, h1] using ih

lemma mem_le_keyMax (h : Heap) : ∀ r o, (r, o) ∈ h →
    r ≤ (h.map Prod.fst).foldr max 0 := by
  induction h with
  | nil => intro r o hmem; simp at hmem
  | cons kv rest ih =>
    intro r o hmem
    obtain ⟨k₀, v₀⟩ := kv
    rcases List.mem_cons.mp hmem with heq | hmem'
    · obtain ⟨rfl, rfl⟩ := Prod.mk.injEq .. ▸ heq
      simp only [List.map_cons, List.foldr_cons]
      omega
    · have := ih r o hmem'
      simp only [List.map_cons, List.foldr_cons]
      omega

lemma alookup_freshRef_ne {h : Heap} {r : Nat} {o : JObj}
    (hr : alookup r h = some o) : r ≠ freshRef h := by
  have hmem := alookup_mem hr
  have := mem_le_keyMax h r o hmem
  rw [freshRef]
  omega

/-- C10: a non-null `setObject` / `extendObject` argument is deep-copied,
the copy is stripped of `from`, `user` and `ts` and transmitted, every
other field is transmitted unchanged, and the caller's object in the heap
keeps all its fields; a null argument rejects with
"Null object is not allowed" and produces no wire traffic. -/
theorem C10_set_extend_object_frame (h : Heap) (id : String) (r : Nat)
    (o : JObj) (k : String) (hr : alookup r h = some o)
    (hk1 : k ≠ "from") (hk2 : k ≠ "user") (hk3 : k ≠ "ts") :
    alookup r (setObject h id (some r)).1 = some o
    ∧ (setObject h id (some r)).2 = .ok [WireMsg.setObject id
        (deleteField "ts" (deleteField "user" (deleteField "from" o)))]
    ∧ alookup r (extendObject h id (some r)).1 = some o
    ∧ (extendObject h id (some r)).2 = .ok [WireMsg.extendObject id
        (deleteField "ts" (deleteField "user" (deleteField "from" o)))]
    ∧ alookup "from"
        (deleteField "ts" (deleteField "user" (deleteField "from" o))) =
        none
    ∧ alookup "user"
        (deleteField "ts" (deleteField "user" (deleteField "from" o))) =
        none
    ∧ alookup "ts"
        (deleteField "ts" (deleteField "user" (deleteField "from" o))) =
        none
    ∧ alookup k
        (deleteField "ts" (deleteField "user" (deleteField "from" o))) =
        alookup k o
    ∧ setObject h id none = (h, .error "Null object is not allowed")
    ∧ extendObject h id none = (h, .error "Null object is not allowed")
    := by
  have hfresh := alookup_freshRef_ne hr
  refine ⟨?_, ?_, ?_, ?_, ?_, ?_, ?_, ?_, rfl, rfl⟩
  · simp [setObject, hr, jsonRoundTrip, alookup_aset_ne _ _ _ _ hfresh]
  · simp [setObject, hr, jsonRoundTrip]
  · simp [extendObject, hr, jsonRoundTrip, alookup_aset_ne _ _ _ _ hfresh]
  · simp [extendObject, hr, jsonRoundTrip]
  · rw [alookup_deleteField_ne _ _ _ (by decide),
      alookup_deleteField_ne _ _ _ (by decide),
      alookup_deleteField_self]
  · rw [alookup_deleteField_ne _ _ _ (by decide),
      alookup_deleteField_self]
  · rw [alookup_deleteField_self]
  · rw [alookup_deleteField_ne _ _ _ hk3, alookup_deleteField_ne _ _ _ hk2,
      alookup_deleteField_ne _ _ _ hk1]

/-- C10 witness: the frame property evaluated on a concrete heap holding an
object with `from`, `user`, `ts` and a `common` field under reference 1. -/
theorem C10_set_extend_object_frame_witness :
    alookup 1 (setObject hC10 "d" (some 1)).1 = some oC10
    ∧ (setObject hC10 "d" (some 1)).2 = .ok [WireMsg.setObject "d"
        (deleteField "ts" (deleteField "user" (deleteField "from" oC10)))]
    ∧ alookup 1 (extendObject hC10 "d" (some 1)).1 = some oC10
    ∧ (extendObject hC10 "d" (some 1)).2 = .ok [WireMsg.extendObject "d"
        (deleteField "ts" (deleteField "user" (deleteField "from" oC10)))]
    ∧ alookup "from"
        (deleteField "ts" (deleteField "user" (deleteField "from" oC10))) =
        none
    ∧ alookup "user"
        (deleteField "ts" (deleteField "user" (deleteField "from" oC10))) =
        none
    ∧ alookup "ts"
        (deleteField "ts" (deleteField "user" (deleteField "from" oC10))) =
        none
    ∧ alookup "common"
        (deleteField "ts" (deleteField "user" (deleteField "from" oC10))) =
        alookup "common" oC10
    ∧ setObject hC10 "d" none = (hC10, .error "Null object is not allowed")
    ∧ extendObject hC10 "d" none =
        (hC10, .error "Null object is not allowed") :=
  C10_set_extend_object_frame hC10 "d" 1 oC10 "common" (by decide)
    (by decide) (by decide) (by decide)

end SocketClient
